import Mathlib

/-!
Verification of the MathSeek recognition/export core against its specification.

The Rust sources under `src-tauri/src` are shallowly embedded below:
pure functions become Lean functions, in-place mutation becomes explicit
state passing, fallible code returns `Except MathSeekError` and code that
can panic (`String::insert_str`) returns `Option`.  `f32` confidence values
are modelled as `ℚ`: every operation the embedded code performs on them is
a comparison against exactly representable constants (0, 1, 0.5, …), for
which rational comparison agrees with IEEE comparison.  Rust `String`s are
modelled as Lean `String`s (sequences of unicode scalar values); byte
offsets are computed from `Char.utf8Size`, matching Rust's UTF-8 byte
indexing.
-/

namespace MathSeek

/-! ## Data model (`lib.rs`) -/

/-- `InputType` from `lib.rs`. -/
inductive InputType where
  | SingleFormula
  | Document
deriving DecidableEq, Repr

/-- `ExportFormat` from `lib.rs`. -/
inductive ExportFormat where
  | LaTeX
  | LaTeXInline
  | LaTeXBlock
  | Markdown
  | MarkdownInline
  | MarkdownBlock
  | DOCX
  | HTML
  | PlainText
deriving DecidableEq, Repr

/-- `RenderEngine` from `lib.rs`. -/
inductive RenderEngine where
  | MathJax
  | KaTeX
deriving DecidableEq, Repr

/-- `InlineFormat` from `lib.rs`. -/
inductive InlineFormat where
  | Dollar
  | Parentheses
deriving DecidableEq, Repr

/-- `BlockFormat` from `lib.rs`. -/
inductive BlockFormat where
  | DoubleDollar
  | Brackets
deriving DecidableEq, Repr

/-- `MarkdownFormulaFormat` from `lib.rs`. -/
structure MarkdownFormulaFormat where
  inline : InlineFormat
  block : BlockFormat
deriving DecidableEq, Repr

/-- `AppConfig` from `lib.rs`.  The `HashMap<InputType, ExportFormat>` is
modelled as a lookup function `InputType → Option ExportFormat` (only `get`
is performed on it by the embedded code). -/
structure AppConfig where
  api_endpoint : String
  api_key : String
  default_export_format : InputType → Option ExportFormat
  render_engine : RenderEngine
  markdown_formula_format : MarkdownFormulaFormat

/-- `FormulaBlock` from `lib.rs`: a fragment of formula source text, a byte
position into the owning section's text, and an inline/block flag. -/
structure FormulaBlock where
  latex : String
  position : Nat
  is_inline : Bool
deriving DecidableEq, Repr

/-- `DocumentSection` from `lib.rs`. -/
structure DocumentSection where
  heading : Option String
  text : String
  formulas : List FormulaBlock
deriving DecidableEq, Repr

/-- `DocumentContent` from `lib.rs`. -/
structure DocumentContent where
  title : Option String
  sections : List DocumentSection
deriving DecidableEq, Repr

/-- `ResultContent` from `lib.rs`. -/
inductive ResultContent where
  | SingleFormula (latex : String)
  | Document (doc : DocumentContent)
deriving DecidableEq, Repr

/-- `FormulaResult` from `lib.rs`.  `confidence : f32` is modelled as `ℚ`. -/
structure FormulaResult where
  latex : String
  confidence : ℚ
  timestamp : Nat
  input_type : InputType
  content : ResultContent
deriving DecidableEq

/-- `AnalysisResult` from `lib.rs`. -/
structure AnalysisResult where
  formula_type : String
  description : String
  usage : String
  examples : List String
deriving DecidableEq, Repr

/-- `Region` from `lib.rs`. -/
structure Region where
  x : Nat
  y : Nat
  width : Nat
  height : Nat
deriving DecidableEq, Repr

/-- `ImageLayout` from `lib.rs`. -/
structure ImageLayout where
  has_multiple_formulas : Bool
  has_text_content : Bool
  formula_regions : List Region
  text_regions : List Region
deriving DecidableEq, Repr

/-- `MathSeekError` from `error.rs` (each variant carries its message). -/
inductive MathSeekError where
  | ApiError (msg : String)
  | ImageError (msg : String)
  | ConfigError (msg : String)
  | ExportError (msg : String)
  | NetworkError (msg : String)
  | IoError (msg : String)
  | SerializationError (msg : String)
  | Unknown (msg : String)
deriving DecidableEq, Repr

/-- `impl Default for MarkdownFormulaFormat` in `lib.rs`. -/
def MarkdownFormulaFormat.default : MarkdownFormulaFormat :=
  { inline := InlineFormat.Dollar, block := BlockFormat.DoubleDollar }

/-- `impl Default for AppConfig` in `lib.rs`: empty endpoint/key, the
per-type default export formats `SingleFormula ↦ LaTeX`, `Document ↦
Markdown`, MathJax, and the default markdown delimiters. -/
def AppConfig.default : AppConfig :=
  { api_endpoint := ""
    api_key := ""
    default_export_format := fun t =>
      match t with
      | InputType.SingleFormula => some ExportFormat.LaTeX
      | InputType.Document => some ExportFormat.Markdown
    render_engine := RenderEngine.MathJax
    markdown_formula_format := MarkdownFormulaFormat.default }

/-- `FormulaResult::new_single_formula` from `lib.rs`.  The Rust code reads
the system clock for the timestamp; the clock value is passed explicitly. -/
def FormulaResult.new_single_formula (latex : String) (confidence : ℚ)
    (timestamp : Nat) : FormulaResult :=
  { latex := latex
    confidence := confidence
    timestamp := timestamp
    input_type := InputType.SingleFormula
    content := ResultContent.SingleFormula latex }

/-- `AppConfig::validate` from `lib.rs`. -/
def AppConfig.validate (c : AppConfig) : Except MathSeekError Unit :=
  if c.api_endpoint.isEmpty then
    Except.error (MathSeekError.ConfigError "API endpoint cannot be empty")
  else if c.api_key.isEmpty then
    Except.error (MathSeekError.ConfigError "API key cannot be empty")
  else if !("http://".isPrefixOf c.api_endpoint) && !("https://".isPrefixOf c.api_endpoint) then
    Except.error (MathSeekError.ConfigError "API endpoint must be a valid URL")
  else
    Except.ok ()

/-- `FormulaResult::validate` from `lib.rs`: rejects an empty top-level
latex string and any confidence outside `[0.0, 1.0]`. -/
def FormulaResult.validate (r : FormulaResult) : Except MathSeekError Unit :=
  if r.latex.isEmpty then
    Except.error (MathSeekError.ApiError "LaTeX content cannot be empty")
  else if r.confidence < 0 ∨ r.confidence > 1 then
    Except.error (MathSeekError.ApiError "Confidence must be between 0.0 and 1.0")
  else
    Except.ok ()

/-- `DocumentSection::validate` from `lib.rs`: a section needs text or at
least one formula; fragment positions are not inspected. -/
def DocumentSection.validate (s : DocumentSection) : Except MathSeekError Unit :=
  if s.text.isEmpty ∧ s.formulas.isEmpty then
    Except.error (MathSeekError.ApiError "Section must have either text or formulas")
  else
    Except.ok ()

/-- `DocumentContent::validate` from `lib.rs`. -/
def DocumentContent.validate (d : DocumentContent) : Except MathSeekError Unit :=
  if d.sections.isEmpty then
    Except.error (MathSeekError.ApiError "Document must have at least one section")
  else
    d.sections.foldlM (fun _ s => s.validate) ()

/-! ## Rust string primitives

These model the `std` string operations the embedded code relies on. -/

/-- Byte length of a string under UTF-8, i.e. Rust `str::len`. -/
def byteLen (s : String) : Nat :=
  s.data.foldl (fun n c => n + c.utf8Size) 0

/-- Core of `String::insert_str`: walk the characters consuming `idx`
bytes; inserting at byte index 0 is always a boundary, landing strictly
inside a character's UTF-8 encoding or running past the end of the string
is a panic (`none`), exactly Rust's `assert!(self.is_char_boundary(idx))`
semantics. -/
def insertStrAux (ins : List Char) : List Char → Nat → Option (List Char)
  | cs, 0 => some (ins ++ cs)
  | [], _ + 1 => none
  | c :: cs, n + 1 =>
    if n + 1 < c.utf8Size then none
    else (insertStrAux ins cs (n + 1 - c.utf8Size)).map (fun l => c :: l)

/-- `String::insert_str(self, idx, string)` — `none` models the panic on an
out-of-range or non-boundary byte index. -/
def rustInsertStr (s : String) (idx : Nat) (ins : String) : Option String :=
  (insertStrAux ins.data s.data idx).map (fun l => ⟨l⟩)

/-- Rust `str::trim_matches(c)`: strip every leading and trailing
occurrence of the character. -/
def rustTrimMatches (p : Char → Bool) (s : String) : String :=
  ⟨(((s.data.dropWhile p).reverse.dropWhile p).reverse)⟩

/-- `latex.trim_matches('$')`, used throughout the export engine. -/
def trimDollars (s : String) : String :=
  rustTrimMatches (fun c => c = '$') s

/-- The Unicode `White_Space` property, which Rust's `str::trim` and
`char::is_whitespace` strip/test. -/
def rustIsWhitespace (c : Char) : Bool :=
  let n := c.toNat
  n = 0x9 ∨ n = 0xa ∨ n = 0xb ∨ n = 0xc ∨ n = 0xd ∨ n = 0x20 ∨
  n = 0x85 ∨ n = 0xa0 ∨ n = 0x1680 ∨
  (0x2000 ≤ n ∧ n ≤ 0x200a) ∨
  n = 0x2028 ∨ n = 0x2029 ∨ n = 0x202f ∨ n = 0x205f ∨ n = 0x3000

/-- Rust `str::trim`. -/
def rustTrim (s : String) : String :=
  rustTrimMatches rustIsWhitespace s

/-- Whether `needle` occurs as a contiguous substring of the list —
Rust `str::contains` with a string pattern. -/
def containsSub (needle : List Char) : List Char → Bool
  | [] => needle.isEmpty
  | c :: t => needle.isPrefixOf (c :: t) || containsSub needle t

/-- Rust `str::contains(pat)` for a string pattern. -/
def strContains (hay needle : String) : Bool :=
  containsSub needle.data hay.data

/-- Two-decimal numeric formatting, modelling Rust's `format!("{:.2}", x)`
on the `f32` values that reach it. -/
def fmtFloat2 (q : ℚ) : String :=
  let n : Int := round (q * 100)
  let a : Nat := n.natAbs
  (if n < 0 then "-" else "") ++ toString (a / 100) ++ "." ++
    (if a % 100 < 10 then "0" else "") ++ toString (a % 100)

/-- `format!("{:?}", input_type)` — the derived `Debug` rendering. -/
def inputTypeDebug : InputType → String
  | InputType.SingleFormula => "SingleFormula"
  | InputType.Document => "Document"

/-! ## Export engine (`export_manager.rs`) -/

/-- `ExportConfig` from `export_manager.rs` (`format_options` modelled as an
association list). -/
structure ExportConfig where
  format : ExportFormat
  include_metadata : Bool
  custom_template : Option String
  format_options : List (String × String)
deriving DecidableEq

/-- `impl Default for ExportConfig` in `export_manager.rs`. -/
def ExportConfig.default : ExportConfig :=
  { format := ExportFormat.LaTeX
    include_metadata := true
    custom_template := none
    format_options := [] }

/-- `ExportManager::format_formula_for_markdown`: strip surrounding `$`,
then wrap per the configured inline/block delimiter style. -/
def format_formula_for_markdown (latex : String) (is_inline : Bool)
    (format : MarkdownFormulaFormat) : String :=
  let clean_latex := trimDollars latex
  if is_inline then
    match format.inline with
    | InlineFormat.Dollar => "$" ++ clean_latex ++ "$"
    | InlineFormat.Parentheses => "\\(" ++ clean_latex ++ "\\)"
  else
    match format.block with
    | BlockFormat.DoubleDollar => "$$" ++ clean_latex ++ "$$"
    | BlockFormat.Brackets => "\\[" ++ clean_latex ++ "\\]"

/-- `section.formulas.clone()` followed by
`sort_by(|a, b| b.position.cmp(&a.position))`: a stable sort into
descending position order. -/
def sortFragsDesc (l : List FormulaBlock) : List FormulaBlock :=
  l.insertionSort (fun a b => b.position ≤ a.position)

/-- The splicing loop shared by the document export paths: insert each
fragment's rendered markup into the body text at its byte position, in the
order the list gives them; any out-of-range/non-boundary position is a
panic (`none`). -/
def spliceFragments (text : String) (frags : List FormulaBlock)
    (render : FormulaBlock → String) : Option String :=
  frags.foldlM (fun t f => rustInsertStr t f.position (render f)) text

/-- Sequential accumulation of per-section renderings, aborting at the
first panic; models the `for section in &doc.sections` loops. -/
def renderSections (f : DocumentSection → Option String) :
    List DocumentSection → Option String
  | [] => some ""
  | s :: rest => do
    let a ← f s
    let b ← renderSections f rest
    pure (a ++ b)

/-- Fragment markup used by `document_to_latex`: `$…$` when inline, an
`equation` environment when block. -/
def latexFragMarkup (f : FormulaBlock) : String :=
  if f.is_inline then "$" ++ trimDollars f.latex ++ "$"
  else "\\begin\x7bequation\x7d\n" ++ trimDollars f.latex ++ "\n\\end\x7bequation\x7d"

/-- The fixed preamble emitted by `document_to_latex`. -/
def latexDocHeader : String :=
  "\\documentclass\x7barticle\x7d\n\\usepackage\x7bamsmath\x7d\n\\usepackage\x7bamsfonts\x7d\n" ++
  "\\usepackage\x7bamssymb\x7d\n\\usepackage[utf8]\x7binputenc\x7d\n\n\\begin\x7bdocument\x7d\n\n"

/-- Per-section body of `ExportManager::document_to_latex`: optional
`\section` heading, then (when the body text is non-empty) the text with
fragments spliced in descending position order. -/
def latexSection (s : DocumentSection) : Option String := do
  let head := match s.heading with
    | some h => "\\section\x7b" ++ h ++ "\x7d\n\n"
    | none => ""
  if s.text.isEmpty then
    pure head
  else do
    let t ← spliceFragments s.text (sortFragsDesc s.formulas) latexFragMarkup
    pure (head ++ t ++ "\n\n")

/-- `ExportManager::document_to_latex`. -/
def document_to_latex (doc : DocumentContent) : Option String := do
  let titlePart := match doc.title with
    | some t => "\\title\x7b" ++ t ++ "\x7d\n\\maketitle\n\n"
    | none => ""
  let body ← renderSections latexSection doc.sections
  pure (latexDocHeader ++ titlePart ++ body ++ "\\end\x7bdocument\x7d")

/-- Per-section body of the `Document` arm of
`ExportManager::export_to_latex_inline`: every fragment is forced inline
and — unlike the other splicing paths — the fragment list is **not**
sorted; fragments are inserted in list order, and splicing happens even
when the body text is empty. -/
def latexInlineSection (s : DocumentSection) : Option String := do
  let head := match s.heading with
    | some h => "\\section\x7b" ++ h ++ "\x7d\n\n"
    | none => ""
  let t ← spliceFragments s.text s.formulas
    (fun f => "$" ++ trimDollars f.latex ++ "$")
  pure (head ++ t ++ "\n\n")

/-- The `Document` arm of `ExportManager::export_to_latex_inline`. -/
def documentToLatexInline (doc : DocumentContent) : Option String :=
  renderSections latexInlineSection doc.sections

/-- `ExportManager::document_to_latex_block`: underlined title/headings,
body text verbatim, each formula appended as `$$…$$` (no splicing). -/
def document_to_latex_block (doc : DocumentContent) : Option String := do
  let titlePart := match doc.title with
    | some t => t ++ "\n" ++ "".pushn '=' (t.length) ++ "\n\n"
    | none => ""
  let body ← renderSections (fun s => do
    let head := match s.heading with
      | some h => h ++ "\n" ++ "".pushn '-' (h.length) ++ "\n\n"
      | none => ""
    let textPart := if s.text.isEmpty then "" else s.text ++ "\n\n"
    let forms := s.formulas.foldl
      (fun acc f => acc ++ "$$" ++ trimDollars f.latex ++ "$$\n\n") ""
    pure (head ++ textPart ++ forms)) doc.sections
  pure (titlePart ++ body)

/-- Per-section body of `ExportManager::document_to_markdown`: `##`
heading, then (for non-empty body text) the text with fragments spliced in
descending position order, each rendered per the configured markdown
delimiter style and its own inline/block flag. -/
def markdownSection (format : MarkdownFormulaFormat) (s : DocumentSection) :
    Option String := do
  let head := match s.heading with
    | some h => "## " ++ h ++ "\n\n"
    | none => ""
  if s.text.isEmpty then
    pure head
  else do
    let t ← spliceFragments s.text (sortFragsDesc s.formulas)
      (fun f => format_formula_for_markdown f.latex f.is_inline format)
    pure (head ++ t ++ "\n\n")

/-- `ExportManager::document_to_markdown`. -/
def document_to_markdown (format : MarkdownFormulaFormat)
    (doc : DocumentContent) : Option String := do
  let titlePart := match doc.title with
    | some t => "# " ++ t ++ "\n\n"
    | none => ""
  let body ← renderSections (markdownSection format) doc.sections
  pure (titlePart ++ body)

/-- Per-section body of `ExportManager::document_to_markdown_inline`: as
`markdownSection` but every fragment is forced inline; the fragment list is
still sorted into descending position order. -/
def markdownInlineSection (format : MarkdownFormulaFormat)
    (s : DocumentSection) : Option String := do
  let head := match s.heading with
    | some h => "## " ++ h ++ "\n\n"
    | none => ""
  if s.text.isEmpty then
    pure head
  else do
    let t ← spliceFragments s.text (sortFragsDesc s.formulas)
      (fun f => format_formula_for_markdown f.latex true format)
    pure (head ++ t ++ "\n\n")

/-- `ExportManager::document_to_markdown_inline`. -/
def document_to_markdown_inline (format : MarkdownFormulaFormat)
    (doc : DocumentContent) : Option String := do
  let titlePart := match doc.title with
    | some t => "# " ++ t ++ "\n\n"
    | none => ""
  let body ← renderSections (markdownInlineSection format) doc.sections
  pure (titlePart ++ body)

/-- `ExportManager::document_to_markdown_block`: text verbatim, every
formula appended afterwards in forced block style (no splicing). -/
def document_to_markdown_block (format : MarkdownFormulaFormat)
    (doc : DocumentContent) : Option String := do
  let titlePart := match doc.title with
    | some t => "# " ++ t ++ "\n\n"
    | none => ""
  let body ← renderSections (fun s => do
    let head := match s.heading with
      | some h => "## " ++ h ++ "\n\n"
      | none => ""
    let textPart := if s.text.isEmpty then "" else s.text ++ "\n\n"
    let forms := s.formulas.foldl
      (fun acc f =>
        acc ++ format_formula_for_markdown f.latex false format ++ "\n\n") ""
    pure (head ++ textPart ++ forms)) doc.sections
  pure (titlePart ++ body)

/-- The fixed HTML prologue pushed by `ExportManager::export_to_html`
(MathJax script references, configuration and stylesheet). -/
def htmlHeader : String :=
  "<!DOCTYPE html>\n<html>\n<head>\n" ++
  "<meta charset=\"utf-8\">\n" ++
  "<title>Mathematical Formula</title>\n" ++
  "<script src=\"https://polyfill.io/v3/polyfill.min.js?features=es6\"></script>\n" ++
  "<script id=\"MathJax-script\" async src=\"https://cdn.jsdelivr.net/npm/mathjax@3/es5/tex-mml-chtml.js\"></script>\n" ++
  "<script>\n" ++
  "window.MathJax = \x7b\n" ++
  "  tex: \x7b\n" ++
  "    inlineMath: [['$', '$'], ['\\\\(', '\\\\)']],\n" ++
  "    displayMath: [['$$', '$$'], ['\\\\[', '\\\\]']]\n" ++
  "  \x7d\n" ++
  "\x7d;\n" ++
  "</script>\n" ++
  "<style>\n" ++
  "body \x7b font-family: serif; margin: 2rem; line-height: 1.6; \x7d\n" ++
  ".formula \x7b text-align: center; margin: 1rem 0; \x7d\n" ++
  ".document-title \x7b text-align: center; font-size: 1.5em; margin-bottom: 2rem; \x7d\n" ++
  ".section-heading \x7b font-size: 1.2em; margin: 1.5rem 0 1rem 0; \x7d\n" ++
  "</style>\n" ++
  "</head>\n<body>\n"

/-- Per-section body of the `Document` arm of
`ExportManager::export_to_html`: fragments spliced in descending position
order (`$…$` inline, `$$…$$` block), then the text split on blank lines
into `<p>` elements. -/
def htmlSection (s : DocumentSection) : Option String := do
  let head := match s.heading with
    | some h => "<h2 class=\"section-heading\">" ++ h ++ "</h2>\n"
    | none => ""
  let body ←
    if s.text.isEmpty then
      pure ""
    else do
      let t ← spliceFragments s.text (sortFragsDesc s.formulas)
        (fun f =>
          if f.is_inline then "$" ++ trimDollars f.latex ++ "$"
          else "$$" ++ trimDollars f.latex ++ "$$")
      let paragraphs := t.splitOn "\n\n"
      pure (paragraphs.foldl
        (fun acc p =>
          if (rustTrim p).isEmpty then acc
          else acc ++ "<p>" ++ rustTrim p ++ "</p>\n") "")
  pure (head ++ body ++ "\n")

/-- `ExportManager::export_to_html`. -/
def export_to_html (result : FormulaResult) (config : ExportConfig) :
    Option String := do
  let contentPart ← match result.content with
    | ResultContent.SingleFormula latex =>
      pure ("<div class=\"formula\">\n" ++ "$$" ++ trimDollars latex ++ "$$" ++
        "\n</div>\n")
    | ResultContent.Document doc => do
      let titlePart := match doc.title with
        | some t => "<h1 class=\"document-title\">" ++ t ++ "</h1>\n"
        | none => ""
      let body ← renderSections htmlSection doc.sections
      pure (titlePart ++ body)
  let metaPart :=
    if config.include_metadata then
      "<hr>\n<div class=\"metadata\">\n<small>\n" ++
      "Generated by MathSeek<br>\n" ++
      "Input Type: " ++ inputTypeDebug result.input_type ++ "<br>\n" ++
      "Confidence: " ++ fmtFloat2 result.confidence ++ "<br>\n" ++
      "</small>\n</div>\n"
    else ""
  pure (htmlHeader ++ contentPart ++ metaPart ++ "</body>\n</html>")

/-- `ExportManager::export_to_docx` (placeholder labeled plain text). -/
def export_to_docx (result : FormulaResult) : Option String :=
  match result.content with
  | ResultContent.SingleFormula latex =>
    some ("DOCX Export:\n\nFormula: " ++ latex)
  | ResultContent.Document doc =>
    let titlePart := match doc.title with
      | some t => "Title: " ++ t ++ "\n\n"
      | none => ""
    let body := (doc.sections.enum.foldl
      (fun acc (is : Nat × DocumentSection) =>
        let i := is.1
        let s := is.2
        let head := match s.heading with
          | some h => "Heading: " ++ h ++ "\n"
          | none => ""
        let textPart := if s.text.isEmpty then "" else "Text: " ++ s.text ++ "\n"
        let forms := (s.formulas.enum.foldl
          (fun acc2 (jf : Nat × FormulaBlock) =>
            acc2 ++ "Formula " ++ toString (jf.1 + 1) ++ ": " ++ jf.2.latex ++
              " (" ++ (if jf.2.is_inline then "inline" else "block") ++ ")\n") "")
        acc ++ "Section " ++ toString (i + 1) ++ ":\n" ++ head ++ textPart ++
          forms ++ "\n") "")
    some ("DOCX Export:\n\n" ++ titlePart ++ body)

/-- `ExportManager::export_to_plain_text`. -/
def export_to_plain_text (result : FormulaResult) : Option String :=
  match result.content with
  | ResultContent.SingleFormula latex => some latex
  | ResultContent.Document doc =>
    let titlePart := match doc.title with
      | some t => t ++ "\n" ++ "".pushn '=' (t.length) ++ "\n\n"
      | none => ""
    let body := doc.sections.foldl
      (fun acc s =>
        let head := match s.heading with
          | some h => h ++ "\n" ++ "".pushn '-' (h.length) ++ "\n\n"
          | none => ""
        let textPart := if s.text.isEmpty then "" else s.text ++ "\n\n"
        let forms :=
          if s.formulas.isEmpty then ""
          else (s.formulas.enum.foldl
            (fun acc2 (jf : Nat × FormulaBlock) =>
              acc2 ++ toString (jf.1 + 1) ++ ". " ++ jf.2.latex ++ " (" ++
                (if jf.2.is_inline then "inline" else "block") ++ ")\n")
            "Formulas:\n") ++ "\n"
        acc ++ head ++ textPart ++ forms) ""
    some (titlePart ++ body)

/-- The `content` produced by `ExportManager::export_formula_result`: the
dispatch over the nine export formats.  The Rust method additionally wraps
the content with timing metadata read from the system clock; none of the
verified claims concern that wrapper, so the content computation is the
embedded operation.  A `none` models a Rust panic inside `String::insert_str`;
no arm of the dispatch ever returns `Err`. -/
def exportContent (appCfg : AppConfig) (result : FormulaResult)
    (ec : ExportConfig) : Option String :=
  match ec.format with
  | ExportFormat.LaTeX =>
    match result.content with
    | ResultContent.SingleFormula latex => some latex
    | ResultContent.Document doc => document_to_latex doc
  | ExportFormat.LaTeXInline =>
    match result.content with
    | ResultContent.SingleFormula latex => some ("$" ++ trimDollars latex ++ "$")
    | ResultContent.Document doc => documentToLatexInline doc
  | ExportFormat.LaTeXBlock =>
    match result.content with
    | ResultContent.SingleFormula latex => some ("$$" ++ trimDollars latex ++ "$$")
    | ResultContent.Document doc => document_to_latex_block doc
  | ExportFormat.Markdown =>
    match result.content with
    | ResultContent.SingleFormula latex =>
      some (format_formula_for_markdown latex false appCfg.markdown_formula_format)
    | ResultContent.Document doc =>
      document_to_markdown appCfg.markdown_formula_format doc
  | ExportFormat.MarkdownInline =>
    match result.content with
    | ResultContent.SingleFormula latex =>
      some (format_formula_for_markdown latex true appCfg.markdown_formula_format)
    | ResultContent.Document doc =>
      document_to_markdown_inline appCfg.markdown_formula_format doc
  | ExportFormat.MarkdownBlock =>
    match result.content with
    | ResultContent.SingleFormula latex =>
      some (format_formula_for_markdown latex false appCfg.markdown_formula_format)
    | ResultContent.Document doc =>
      document_to_markdown_block appCfg.markdown_formula_format doc
  | ExportFormat.HTML => export_to_html result ec
  | ExportFormat.DOCX => export_to_docx result
  | ExportFormat.PlainText => export_to_plain_text result

/-- `ExportManager::get_available_formats`. -/
def get_available_formats (input_type : InputType) : List ExportFormat :=
  match input_type with
  | InputType.SingleFormula =>
    [ExportFormat.LaTeX, ExportFormat.LaTeXInline, ExportFormat.LaTeXBlock,
     ExportFormat.Markdown, ExportFormat.MarkdownInline,
     ExportFormat.MarkdownBlock, ExportFormat.HTML, ExportFormat.PlainText]
  | InputType.Document =>
    [ExportFormat.LaTeX, ExportFormat.Markdown, ExportFormat.HTML,
     ExportFormat.DOCX, ExportFormat.PlainText]

/-- `ExportManager::get_default_format`: configured per-type format, else
`LaTeX` for `SingleFormula` and `Markdown` for `Document`. -/
def get_default_format (config : AppConfig) (input_type : InputType) :
    ExportFormat :=
  match config.default_export_format input_type with
  | some f => f
  | none =>
    match input_type with
    | InputType.SingleFormula => ExportFormat.LaTeX
    | InputType.Document => ExportFormat.Markdown


/-! ## Recognition orchestrator (`recognition_engine.rs`) -/

/-- `RecognitionConfig` from `recognition_engine.rs`. -/
structure RecognitionConfig where
  confidence_threshold : ℚ
  preprocessing_enabled : Bool
  auto_type_detection : Bool
  validation_enabled : Bool
deriving DecidableEq

/-- `impl Default for RecognitionConfig`. -/
def RecognitionConfig.default : RecognitionConfig :=
  { confidence_threshold := 1/2
    preprocessing_enabled := true
    auto_type_detection := true
    validation_enabled := true }

/-- The character loop of `RecognitionEngine::is_valid_latex_syntax`:
`\x7b` increments the brace counter, `\x7d` decrements it with an immediate
`return false` when it would go negative, `$` toggles the math-mode flag;
at the end the counter must be zero and math mode closed. -/
def scanLatex : Int → Bool → List Char → Bool
  | count, inMath, [] => count == 0 && !inMath
  | count, inMath, c :: rest =>
    if c = '\x7b' then scanLatex (count + 1) inMath rest
    else if c = '\x7d' then
      if count - 1 < 0 then false else scanLatex (count - 1) inMath rest
    else if c = '$' then scanLatex count (!inMath) rest
    else scanLatex count inMath rest

/-- `RecognitionEngine::is_valid_latex_syntax` (the input is trimmed before
the scan, as in the source). -/
def is_valid_latex (latex : String) : Bool :=
  scanLatex 0 false (rustTrim latex).data

/-- `RecognitionEngine::validate_single_formula`. -/
def validate_single_formula (latex : String) : Except MathSeekError Unit :=
  if (rustTrim latex).isEmpty then
    Except.error (MathSeekError.ApiError "Empty formula content")
  else if !is_valid_latex latex then
    Except.error (MathSeekError.ApiError "Invalid LaTeX syntax detected")
  else
    Except.ok ()

/-- `RecognitionEngine::validate_document_content`: structural validation,
then the syntax scan on every fragment's formula text. -/
def validate_document_content (doc : DocumentContent) : Except MathSeekError Unit := do
  doc.validate
  doc.sections.foldlM (fun _ s =>
    s.formulas.foldlM (fun _ f =>
      if !is_valid_latex f.latex then
        Except.error (MathSeekError.ApiError
          ("Invalid LaTeX syntax in formula: " ++ f.latex))
      else
        Except.ok ()) ()) ()

/-- `RecognitionEngine::validate_recognition_result` (step 6 of the
pipeline): the Rust method mutates `result` in place, modelled here as
returning the updated result.  Note the order: `result.validate()` — which
rejects any confidence outside `[0.0, 1.0]` — runs **before** the
confidence normalisation at the end of the method. -/
def validate_recognition_result (r : FormulaResult) :
    Except MathSeekError FormulaResult := do
  r.validate
  (match r.content with
   | ResultContent.SingleFormula latex => validate_single_formula latex
   | ResultContent.Document doc => validate_document_content doc)
  let conf :=
    if r.confidence > 1 then (1 : ℚ)
    else if r.confidence < 0 then 0
    else r.confidence
  pure { r with confidence := conf }

/-- Step 7 of `RecognitionEngine::recognize_content`: the confidence gate.
Fails (with both values reported) exactly when the final confidence is
strictly below the configured threshold. -/
def confidence_gate (threshold : ℚ) (r : FormulaResult) :
    Except MathSeekError FormulaResult :=
  if r.confidence < threshold then
    Except.error (MathSeekError.ApiError
      ("Recognition confidence (" ++ fmtFloat2 r.confidence ++
        ") below threshold (" ++ fmtFloat2 threshold ++ ")"))
  else
    Except.ok r

/-- Steps 6–7 of `RecognitionEngine::recognize_content`, applied to the
result produced by the dispatch step. -/
def recognize_finalize (cfg : RecognitionConfig) (r : FormulaResult) :
    Except MathSeekError FormulaResult := do
  let r ← if cfg.validation_enabled then validate_recognition_result r else pure r
  confidence_gate cfg.confidence_threshold r

/-- The region-count summary string built by
`RecognitionEngine::enhance_document_with_layout`. -/
def regionInfoString (layout : ImageLayout) : String :=
  "Detected " ++ toString layout.formula_regions.length ++
    " formula regions and " ++ toString layout.text_regions.length ++
    " text regions"

/-- `RecognitionEngine::enhance_document_with_layout`: create a placeholder
section (fixed text "Recognized content") when the document has none, then
write the region summary into the first section only when that section's
text is empty.  The Rust method mutates `doc`; modelled as returning the
updated document (it never returns `Err`). -/
def enhance_document_with_layout (doc : DocumentContent)
    (layout : ImageLayout) : DocumentContent :=
  let doc :=
    if doc.sections.isEmpty then
      { doc with sections := [{ heading := none, text := "Recognized content",
                                formulas := [] }] }
    else doc
  match doc.sections with
  | [] => doc
  | s :: rest =>
    if s.text.isEmpty then
      { doc with sections := { s with text := regionInfoString layout } :: rest }
    else doc

/-! ## Remote client (`api_client.rs`) -/

/-- `ApiConfig` from `api_client.rs`. -/
structure ApiConfig where
  endpoint : String
  api_key : String
  timeout_seconds : Nat
  max_retries : Nat
  retry_delay_ms : Nat
deriving DecidableEq

/-- `impl Default for ApiConfig`. -/
def ApiConfig.default : ApiConfig :=
  { endpoint := ""
    api_key := ""
    timeout_seconds := 30
    max_retries := 3
    retry_delay_ms := 1000 }

/-- `RecognitionResponse` from `api_client.rs`.  The `content` field is a
raw `serde_json::Value` payload; none of the operations embedded here ever
inspects it, so it is modelled opaquely. -/
structure RecognitionResponse where
  success : Bool
  latex : Option String
  confidence : Option ℚ
  content : Option Unit
  error : Option String
deriving DecidableEq

/-- `AnalysisResponse` from `api_client.rs`. -/
structure AnalysisResponse where
  success : Bool
  formula_type : Option String
  description : Option String
  usage : Option String
  examples : Option (List String)
  error : Option String
deriving DecidableEq

/-- The JSON envelope the remote `/analyze` endpoint returns (§6 of the
protocol: `\x7bsuccess, formula_type?, description?, usage?, examples?,
error?\x7d`); this is the wire shape `AnalysisResponse` was written to
receive. -/
structure AnalysisEnvelope where
  success : Bool
  formula_type : Option String
  description : Option String
  usage : Option String
  examples : Option (List String)
  error : Option String
deriving DecidableEq

/-- How `make_single_request` reads an `/analyze` response body: the body
is deserialized into `RecognitionResponse`, whose fields are `success`,
`latex`, `confidence`, `content`, `error` — the envelope's analysis fields
(`formula_type`, `description`, `usage`, `examples`) match no field of that
struct and are discarded (serde ignores unknown keys), while `latex`,
`confidence` and `content` are absent from the envelope and default to
`None`. -/
def analysisBodyAsRecognitionResponse (env : AnalysisEnvelope) :
    RecognitionResponse :=
  { success := env.success
    latex := none
    confidence := none
    content := none
    error := env.error }

/-- The tail of `make_single_request` on a 2xx `/analyze` response with a
well-formed JSON body: parse the body as `RecognitionResponse` and reject
`success: false` envelopes with the carried error text. -/
def make_single_request_analysis (env : AnalysisEnvelope) :
    Except MathSeekError RecognitionResponse :=
  let rr := analysisBodyAsRecognitionResponse env
  if !rr.success then
    Except.error (MathSeekError.ApiError (rr.error.getD "Unknown API error"))
  else
    Except.ok rr

/-- The serialize/re-parse round trip inside `parse_analysis_response`:
`serde_json::to_string(&response)` emits exactly the five
`RecognitionResponse` keys, so deserializing that string into
`AnalysisResponse` leaves every analysis field at its `None` default and
carries over only `success` and `error`. -/
def recognitionResponseReserialized (rr : RecognitionResponse) :
    AnalysisResponse :=
  { success := rr.success
    formula_type := none
    description := none
    usage := none
    examples := none
    error := rr.error }

/-- `ApiClient::parse_analysis_response`. -/
def parse_analysis_response (rr : RecognitionResponse) :
    Except MathSeekError AnalysisResult :=
  let ar := recognitionResponseReserialized rr
  if !ar.success then
    Except.error (MathSeekError.ApiError (ar.error.getD "Analysis failed"))
  else
    Except.ok
      { formula_type := ar.formula_type.getD "Unknown"
        description := ar.description.getD "No description available"
        usage := ar.usage.getD "No usage information available"
        examples := ar.examples.getD [] }

/-- `ApiClient::analyze_formula`, from the point where the remote's
response envelope is in hand (transport succeeded): the single-request body
handling followed by `parse_analysis_response`. -/
def analyze_formula (env : AnalysisEnvelope) :
    Except MathSeekError AnalysisResult := do
  let rr ← make_single_request_analysis env
  parse_analysis_response rr

/-- The non-retryable test inside `make_request_with_retry`: only an
`ApiError` whose message contains "401", "403" or "400" breaks the loop. -/
def isNonRetryableErr (e : MathSeekError) : Bool :=
  match e with
  | MathSeekError.ApiError msg =>
    strContains msg "401" || strContains msg "403" || strContains msg "400"
  | _ => false

/-- Observable outcome of `make_request_with_retry`: the returned value,
how many requests were issued, and the argument of each `sleep` call in
order. -/
instance {α β : Type} [DecidableEq α] [DecidableEq β] :
    DecidableEq (Except α β) := fun a b =>
  match a, b with
  | Except.ok x, Except.ok y =>
    if h : x = y then isTrue (by rw [h]) else isFalse (by simp [h])
  | Except.error x, Except.error y =>
    if h : x = y then isTrue (by rw [h]) else isFalse (by simp [h])
  | Except.ok _, Except.error _ => isFalse (by simp)
  | Except.error _, Except.ok _ => isFalse (by simp)

structure RetryOutcome where
  result : Except MathSeekError RecognitionResponse
  attemptsMade : Nat
  sleptMs : List Nat
deriving DecidableEq

/-- The loop body of `make_request_with_retry`.  `remaining` is the number
of loop iterations left (`for attempt in 0..=max_retries` performs
`max_retries + 1`), `attempt` the current 0-based index, `lastErr` the
`last_error` variable, `slept` the sleeps already performed.  The oracle
gives the outcome of `make_single_request` on each attempt index. -/
def retryGo (oracle : Nat → Except MathSeekError RecognitionResponse)
    (delayMs : Nat) :
    Nat → Nat → Option MathSeekError → List Nat → RetryOutcome
  | 0, attempt, lastErr, slept =>
    { result := Except.error
        (lastErr.getD (MathSeekError.NetworkError "Max retries exceeded"))
      attemptsMade := attempt
      sleptMs := slept }
  | remaining + 1, attempt, _lastErr, slept =>
    let slept := if attempt > 0 then slept ++ [delayMs * attempt] else slept
    match oracle attempt with
    | Except.ok resp =>
      { result := Except.ok resp, attemptsMade := attempt + 1, sleptMs := slept }
    | Except.error e =>
      if isNonRetryableErr e then
        { result := Except.error e, attemptsMade := attempt + 1, sleptMs := slept }
      else
        retryGo oracle delayMs remaining (attempt + 1) (some e) slept

/-- `ApiClient::make_request_with_retry`, parametrised by the outcome of
each single request. -/
def make_request_with_retry (cfg : ApiConfig)
    (oracle : Nat → Except MathSeekError RecognitionResponse) : RetryOutcome :=
  retryGo oracle cfg.retry_delay_ms (cfg.max_retries + 1) 0 none []


/-! ## Spec-side definitions and concrete sample inputs -/

/-- One step of the counting scan as the specification words it: `\x7b`
increments the running count, `\x7d` decrements it (recording failure when
the count would go negative), `$` toggles the math-mode flag.  State is
`(count, mathMode, neverWentNegative)`.  This definition follows the
spec's words and is compared against `is_valid_latex`, which is
translated from the source. -/
def specBraceStep (st : Int × Bool × Bool) (c : Char) : Int × Bool × Bool :=
  if c = '\x7b' then (st.1 + 1, st.2.1, st.2.2)
  else if c = '\x7d' then (st.1 - 1, st.2.1, st.2.2 && decide (0 ≤ st.1 - 1))
  else if c = '$' then (st.1, !st.2.1, st.2.2)
  else st

/-- The acceptance predicate as the specification words it: scanning the
string's characters once, the count never goes negative and ends at zero,
and the math-mode flag ends false. -/
def specScanValid (s : String) : Bool :=
  let st := s.data.foldl specBraceStep (0, false, true)
  st.2.2 && (st.1 == 0) && !st.2.1

/-- Two sections that agree except that the fragment list of one is a
permutation of the other's. -/
def SectionPermutedFrags (s₁ s₂ : DocumentSection) : Prop :=
  s₁.heading = s₂.heading ∧ s₁.text = s₂.text ∧ s₁.formulas.Perm s₂.formulas

instance (s₁ s₂ : DocumentSection) : Decidable (SectionPermutedFrags s₁ s₂) := by
  unfold SectionPermutedFrags
  infer_instance

/-- All fragments of a section sit at pairwise distinct positions. -/
def distinctPositions (s : DocumentSection) : Prop :=
  s.formulas.Pairwise (fun a b => a.position ≠ b.position)

instance (s : DocumentSection) : Decidable (distinctPositions s) := by
  unfold distinctPositions
  infer_instance

/-- Sample section whose only fragment records a position (100) beyond the
byte length of its body text ("ab", 2 bytes); it passes structural
validation. -/
def overflowSection : DocumentSection :=
  { heading := some "S", text := "ab",
    formulas := [{ latex := "x", position := 100, is_inline := true }] }

/-- Document holding `overflowSection`. -/
def overflowDoc : DocumentContent :=
  { title := none, sections := [overflowSection] }

/-- Sample section whose fragment position (2) falls strictly inside the
two-byte UTF-8 encoding of `é` in its body text "aé". -/
def midCharSection : DocumentSection :=
  { heading := none, text := "aé",
    formulas := [{ latex := "y", position := 2, is_inline := false }] }

/-- Document holding `midCharSection`. -/
def midCharDoc : DocumentContent :=
  { title := none, sections := [midCharSection] }

/-- A Document-classified result wrapping `overflowDoc`. -/
def overflowResult : FormulaResult :=
  { latex := "ab", confidence := 9/10, timestamp := 0,
    input_type := InputType.Document,
    content := ResultContent.Document overflowDoc }

/-- A layout with two formula regions and one text region. -/
def sampleLayout : ImageLayout :=
  { has_multiple_formulas := true, has_text_content := true
    formula_regions := [{ x := 0, y := 0, width := 1, height := 1 },
                        { x := 1, y := 1, width := 2, height := 2 }]
    text_regions := [{ x := 0, y := 0, width := 3, height := 3 }] }


/-! ## Theorems -/

/-- C2 (counterexample): under the default app configuration the Markdown
export of the single formula "E = mc^2" (confidence 0.95) is
"$$E = mc^2$$" — the block double-dollar style — and not the "$E = mc^2$"
the claim states. -/
theorem markdown_export_of_single_formula_is_block :
    exportContent AppConfig.default
      (FormulaResult.new_single_formula "E = mc^2" (95/100) 0)
      { ExportConfig.default with format := ExportFormat.Markdown } =
      some "$$E = mc^2$$" ∧
    some ("$$E = mc^2$$" : String) ≠ some ("$E = mc^2$" : String) := by
  decide

/-- C2 (amended): under the default app configuration, exporting the
single-formula result "E = mc^2" (confidence 0.95) yields "$$E = mc^2$$"
for format Markdown (the Markdown path renders a single formula with the
default block double-dollar style) and "E = mc^2" verbatim for format
PlainText. -/
theorem single_formula_markdown_and_plaintext_export :
    exportContent AppConfig.default
      (FormulaResult.new_single_formula "E = mc^2" (95/100) 0)
      { ExportConfig.default with format := ExportFormat.Markdown } =
      some "$$E = mc^2$$" ∧
    exportContent AppConfig.default
      (FormulaResult.new_single_formula "E = mc^2" (95/100) 0)
      { ExportConfig.default with format := ExportFormat.PlainText } =
      some "E = mc^2" := by
  decide

/-- C3 (code evaluated at the failing inputs): a result entering
post-validation with confidence 1.5 (or −0.1) is rejected with the
API error "Confidence must be between 0.0 and 1.0" — `result.validate()`
runs before the confidence clamp, so the clamp at the end of
`validate_recognition_result` is unreachable for out-of-range values and
the full step-6/7 pipeline fails rather than clamping. -/
theorem postvalidation_rejects_out_of_range_confidence :
    validate_recognition_result
      (FormulaResult.new_single_formula "x" (3/2) 0) =
      Except.error (MathSeekError.ApiError
        "Confidence must be between 0.0 and 1.0") ∧
    validate_recognition_result
      (FormulaResult.new_single_formula "x" (-1/10) 0) =
      Except.error (MathSeekError.ApiError
        "Confidence must be between 0.0 and 1.0") ∧
    recognize_finalize RecognitionConfig.default
      (FormulaResult.new_single_formula "x" (3/2) 0) =
      Except.error (MathSeekError.ApiError
        "Confidence must be between 0.0 and 1.0") := by
  have h1 : (FormulaResult.new_single_formula "x" (3/2) 0).validate =
      Except.error (MathSeekError.ApiError
        "Confidence must be between 0.0 and 1.0") := by
    rw [FormulaResult.validate]
    norm_num [FormulaResult.new_single_formula,
      show ("x" : String).isEmpty = false from rfl]
  have h2 : (FormulaResult.new_single_formula "x" (-1/10) 0).validate =
      Except.error (MathSeekError.ApiError
        "Confidence must be between 0.0 and 1.0") := by
    rw [FormulaResult.validate]
    norm_num [FormulaResult.new_single_formula,
      show ("x" : String).isEmpty = false from rfl]
  have hv : validate_recognition_result
      (FormulaResult.new_single_formula "x" (3/2) 0) =
      Except.error (MathSeekError.ApiError
        "Confidence must be between 0.0 and 1.0") := by
    simp [validate_recognition_result, h1, Bind.bind, Except.bind]
  refine ⟨hv, ?_, ?_⟩
  · simp [validate_recognition_result, h2, Bind.bind, Except.bind]
  · simp [recognize_finalize, RecognitionConfig.default, hv, Bind.bind,
      Except.bind]

/-- C5: the confidence gate fails with the API error reporting both the
confidence and the threshold exactly when the confidence is strictly below
the threshold; at the boundary (confidence = threshold) the result passes
unchanged. -/
theorem confidence_gate_strict (threshold : ℚ) (r : FormulaResult) :
    (confidence_gate threshold r =
        Except.error (MathSeekError.ApiError
          ("Recognition confidence (" ++ fmtFloat2 r.confidence ++
            ") below threshold (" ++ fmtFloat2 threshold ++ ")")) ↔
      r.confidence < threshold) ∧
    (r.confidence = threshold → confidence_gate threshold r = Except.ok r) := by
  constructor
  · constructor
    · intro h
      by_contra hc
      rw [confidence_gate, if_neg hc] at h
      exact Except.noConfusion h
    · intro h
      rw [confidence_gate, if_pos h]
  · intro h
    rw [confidence_gate, if_neg (by rw [h]; exact lt_irrefl threshold)]

/-- C5 (witness): a result whose confidence equals the default threshold
0.5 passes the gate. -/
theorem confidence_gate_strict_witness :
    confidence_gate (1/2) (FormulaResult.new_single_formula "E" (1/2) 0) =
      Except.ok (FormulaResult.new_single_formula "E" (1/2) 0) :=
  (confidence_gate_strict (1/2)
    (FormulaResult.new_single_formula "E" (1/2) 0)).2 rfl

/-- C7 (code evaluated at the failing input): an analysis envelope that
carries every field is mapped to the all-placeholder `AnalysisResult` —
the body is first parsed as `RecognitionResponse`, which drops
`formula_type`, `description`, `usage` and `examples` — contradicting the
claim that present fields pass through. -/
theorem analyze_formula_discards_envelope_fields :
    analyze_formula
      { success := true
        formula_type := some "Quadratic equation"
        description := some "Relates the roots of a quadratic"
        usage := some "Solve ax^2+bx+c=0"
        examples := some ["x^2 - 1 = 0"]
        error := none } =
      Except.ok
        { formula_type := "Unknown"
          description := "No description available"
          usage := "No usage information available"
          examples := [] } ∧
    ("Unknown" : String) ≠ "Quadratic equation" := by
  decide

/-- C8 (counterexample): enriching a sectionless Document creates the
placeholder with the fixed text "Recognized content"; the placeholder does
not receive the region-count summary, contrary to the claim. -/
theorem placeholder_does_not_receive_summary :
    (enhance_document_with_layout { title := none, sections := [] }
        sampleLayout).sections =
      [{ heading := none, text := "Recognized content", formulas := [] }] ∧
    ("Recognized content" : String) ≠ regionInfoString sampleLayout := by
  decide

/-- C8 (amended): if the Document has no sections, a placeholder section
with the fixed body text "Recognized content" is created (and, having
non-empty text, never receives the region summary); when sections exist,
the region-count summary is written into the first section exactly when
that section's body text is empty, everything else unchanged. -/
theorem enhance_document_layout_behavior (doc : DocumentContent)
    (layout : ImageLayout) :
    (doc.sections = [] →
      enhance_document_with_layout doc layout =
        { doc with sections :=
            [{ heading := none, text := "Recognized content",
               formulas := [] }] }) ∧
    (∀ s rest, doc.sections = s :: rest →
      enhance_document_with_layout doc layout =
        (if s.text.isEmpty then
          { doc with sections :=
              { s with text := regionInfoString layout } :: rest }
        else doc)) := by
  constructor
  · intro h
    simp [enhance_document_with_layout, h,
      show ("Recognized content" : String).isEmpty = false from rfl]
  · intro s rest h
    by_cases he : s.text.isEmpty
    · simp [enhance_document_with_layout, h, he]
    · simp [enhance_document_with_layout, h, he]

/-- C8 (witness): concrete instantiations of both branches of the amended
behaviour. -/
theorem enhance_document_layout_behavior_witness :
    enhance_document_with_layout { title := none, sections := [] }
      sampleLayout =
      { title := none,
        sections := [{ heading := none, text := "Recognized content",
                       formulas := [] }] } :=
  (enhance_document_layout_behavior { title := none, sections := [] }
    sampleLayout).1 rfl

/-- C9 (counterexample): the SingleFormula classification offers eight
export formats, not the seven the claim states. -/
theorem single_formula_formats_are_eight :
    (get_available_formats InputType.SingleFormula).length = 8 ∧
    (8 : Nat) ≠ 7 := by
  decide

/-- C9 (amended): `get_available_formats` returns exactly eight formats
for SingleFormula (all LaTeX/Markdown variants, HTML, plain text) and
exactly five for Document (plain LaTeX, plain Markdown, HTML, the
placeholder DOCX format, plain text); the inline/block LaTeX/Markdown
variants appear only in the SingleFormula list; `get_default_format`
returns the configured per-classification format, falling back to LaTeX
for SingleFormula and Markdown for Document when none is configured. -/
theorem available_and_default_formats :
    get_available_formats InputType.SingleFormula =
      [ExportFormat.LaTeX, ExportFormat.LaTeXInline, ExportFormat.LaTeXBlock,
       ExportFormat.Markdown, ExportFormat.MarkdownInline,
       ExportFormat.MarkdownBlock, ExportFormat.HTML,
       ExportFormat.PlainText] ∧
    (get_available_formats InputType.SingleFormula).length = 8 ∧
    get_available_formats InputType.Document =
      [ExportFormat.LaTeX, ExportFormat.Markdown, ExportFormat.HTML,
       ExportFormat.DOCX, ExportFormat.PlainText] ∧
    (get_available_formats InputType.Document).length = 5 ∧
    ExportFormat.LaTeXInline ∉ get_available_formats InputType.Document ∧
    ExportFormat.LaTeXBlock ∉ get_available_formats InputType.Document ∧
    ExportFormat.MarkdownInline ∉ get_available_formats InputType.Document ∧
    ExportFormat.MarkdownBlock ∉ get_available_formats InputType.Document ∧
    (∀ (cfg : AppConfig) (t : InputType),
      get_default_format cfg t =
        (cfg.default_export_format t).getD
          (match t with
           | InputType.SingleFormula => ExportFormat.LaTeX
           | InputType.Document => ExportFormat.Markdown)) := by
  refine ⟨rfl, rfl, rfl, rfl, by decide, by decide, by decide, by decide, ?_⟩
  intro cfg t
  cases h : cfg.default_export_format t with
  | none => cases t <;> simp [get_default_format, h]
  | some f => simp [get_default_format, h]

/-- C10: a fragment position beyond the section's byte length (or inside a
multi-byte character) makes every splicing Document export path panic
(`none`), while the data-model validators accept the same document — the
offset-within-body invariant is an unchecked precondition of export. -/
theorem export_panics_on_invalid_fragment_positions :
    document_to_latex overflowDoc = none ∧
    document_to_markdown MarkdownFormulaFormat.default overflowDoc = none ∧
    document_to_markdown_inline MarkdownFormulaFormat.default overflowDoc =
      none ∧
    documentToLatexInline overflowDoc = none ∧
    export_to_html overflowResult ExportConfig.default = none ∧
    document_to_latex midCharDoc = none ∧
    DocumentSection.validate overflowSection = Except.ok () ∧
    DocumentContent.validate overflowDoc = Except.ok () ∧
    DocumentSection.validate midCharSection = Except.ok () := by
  decide


/-- Once the never-went-negative flag is false it stays false through the
rest of the scan. -/
theorem specBraceStep_ok_false : ∀ (cs : List Char) (st : Int × Bool × Bool),
    st.2.2 = false → (cs.foldl specBraceStep st).2.2 = false := by
  intro cs
  induction cs with
  | nil => intro st h; exact h
  | cons c t ih =>
    intro st h
    apply ih
    simp only [specBraceStep]
    split_ifs <;> simp [h]

/-- The source's early-returning scan agrees with the spec's single fold:
accepted iff the count never went negative, ends at zero, and math mode is
closed. -/
theorem scanLatex_eq_fold : ∀ (cs : List Char) (count : Int) (math : Bool),
    scanLatex count math cs =
      ((cs.foldl specBraceStep (count, math, true)).2.2 &&
       ((cs.foldl specBraceStep (count, math, true)).1 == 0) &&
       !(cs.foldl specBraceStep (count, math, true)).2.1) := by
  intro cs
  induction cs with
  | nil => intro count math; simp [scanLatex, specBraceStep]
  | cons c t ih =>
    intro count math
    by_cases h1 : c = '\x7b'
    · simp only [scanLatex, h1, if_pos rfl, List.foldl_cons, specBraceStep,
        if_pos rfl]
      exact ih (count + 1) math
    · by_cases h2 : c = '\x7d'
      · by_cases h3 : count - 1 < 0
        · have hd : decide (0 ≤ count - 1) = false := by
            simp
            omega
          simp only [scanLatex, h1, h2, if_neg h1, if_pos rfl, if_pos h3,
            List.foldl_cons, specBraceStep, hd, Bool.and_false]
          rw [specBraceStep_ok_false t _ rfl]
          simp
        · have hd : decide (0 ≤ count - 1) = true := by
            simp
            omega
          simp only [scanLatex, h1, h2, if_neg h1, if_pos rfl, if_neg h3,
            List.foldl_cons, specBraceStep, hd, Bool.and_true]
          exact ih (count - 1) math
      · by_cases h4 : c = '$'
        · simp only [scanLatex, h1, h2, h4, if_neg h1, if_neg h2, if_pos rfl,
            List.foldl_cons, specBraceStep]
          exact ih count (!math)
        · simp only [scanLatex, h1, h2, h4, if_neg h1, if_neg h2, if_neg h4,
            List.foldl_cons, specBraceStep]
          exact ih count math

/-- Whitespace characters are not `\x7b`, `\x7d` or `$`, so the scan step
ignores them. -/
theorem specBraceStep_ws {c : Char} (h : rustIsWhitespace c = true)
    (st : Int × Bool × Bool) : specBraceStep st c = st := by
  have h1 : ¬(c = '\x7b') := by rintro rfl; exact absurd h (by decide)
  have h2 : ¬(c = '\x7d') := by rintro rfl; exact absurd h (by decide)
  have h3 : ¬(c = '$') := by rintro rfl; exact absurd h (by decide)
  simp [specBraceStep, h1, h2, h3]

/-- Scanning an all-whitespace stretch leaves the state unchanged. -/
theorem foldl_specBraceStep_ws_id : ∀ (cs : List Char),
    (∀ c ∈ cs, rustIsWhitespace c = true) →
    ∀ st, cs.foldl specBraceStep st = st := by
  intro cs
  induction cs with
  | nil => intro _ st; rfl
  | cons c t ih =>
    intro h st
    rw [List.foldl_cons, specBraceStep_ws (h c (List.mem_cons_self c t)) st]
    exact ih (fun x hx => h x (List.mem_cons_of_mem c hx)) st

/-- The `str::trim` the source performs before scanning does not change the
scan's outcome: only leading/trailing whitespace is removed, and the scan
ignores whitespace. -/
theorem foldl_specBraceStep_trim (s : String) (st : Int × Bool × Bool) :
    (rustTrim s).data.foldl specBraceStep st =
      s.data.foldl specBraceStep st := by
  have key : ∀ (l : List Char) (st : Int × Bool × Bool),
      (((l.dropWhile rustIsWhitespace).reverse.dropWhile
        rustIsWhitespace).reverse).foldl specBraceStep st =
      l.foldl specBraceStep st := by
    intro l st
    have h1 : l.foldl specBraceStep st =
        (l.dropWhile rustIsWhitespace).foldl specBraceStep st := by
      conv_lhs => rw [← List.takeWhile_append_dropWhile rustIsWhitespace l]
      rw [List.foldl_append,
        foldl_specBraceStep_ws_id _ (fun c hc => List.mem_takeWhile_imp hc) st]
    set m := l.dropWhile rustIsWhitespace with hm
    have h2 : m = (m.reverse.dropWhile rustIsWhitespace).reverse ++
        (m.reverse.takeWhile rustIsWhitespace).reverse := by
      conv_lhs => rw [← List.reverse_reverse m]
      conv_lhs =>
        rw [← List.takeWhile_append_dropWhile rustIsWhitespace m.reverse]
      rw [List.reverse_append]
    rw [h1]
    have h3 : ∀ c ∈ (m.reverse.takeWhile rustIsWhitespace).reverse,
        rustIsWhitespace c = true :=
      fun c hc => List.mem_takeWhile_imp (List.mem_reverse.mp hc)
    conv_rhs => rw [h2]
    rw [List.foldl_append, foldl_specBraceStep_ws_id _ h3]
  exact key s.data st

/-- The validator accepts exactly the strings the spec's scan accepts. -/
theorem latex_syntax_spec_equiv (s : String) :
    is_valid_latex s = specScanValid s := by
  rw [is_valid_latex, specScanValid, scanLatex_eq_fold]
  have h := foldl_specBraceStep_trim s (0, false, true)
  rw [h]

/-- C6: the single-formula syntax validator accepts a string iff the
spec's counting scan does (count driven by `\x7b`/`\x7d` never negative and
ending at zero; `$`-toggled math-mode flag ending false), and the five
spec examples behave as stated. -/
theorem latex_syntax_validator_matches_spec :
    (∀ s : String, is_valid_latex s = specScanValid s) ∧
    is_valid_latex "x^2" = true ∧
    is_valid_latex "$x+y$" = true ∧
    is_valid_latex "x^2\x7d" = false ∧
    is_valid_latex "\x7bx^2" = false ∧
    is_valid_latex "$x+y" = false :=
  ⟨latex_syntax_spec_equiv, by decide, by decide, by decide, by decide,
    by decide⟩


/-- Invariant of the retry loop body: attempt counting, the sleep schedule,
that every attempt before the last failed retryably, and that the returned
value is the last attempt's outcome (the generic "Max retries exceeded"
error can only arise when no iteration ran at all). -/
theorem retryGo_spec (oracle : Nat → Except MathSeekError RecognitionResponse)
    (delay : Nat) :
    ∀ (rem att : Nat) (le : Option MathSeekError) (sl : List Nat),
    (le = none → att = 0) →
    (∀ e, le = some e → 0 < att ∧ oracle (att - 1) = Except.error e ∧
      isNonRetryableErr e = false) →
    att ≤ (retryGo oracle delay rem att le sl).attemptsMade ∧
    (retryGo oracle delay rem att le sl).attemptsMade ≤ att + rem ∧
    (0 < rem → att < (retryGo oracle delay rem att le sl).attemptsMade) ∧
    (retryGo oracle delay rem att le sl).sleptMs =
      sl ++ (List.range' (max att 1)
        ((retryGo oracle delay rem att le sl).attemptsMade - max att 1)).map
          (fun a => delay * a) ∧
    (∀ a, att ≤ a → a + 1 < (retryGo oracle delay rem att le sl).attemptsMade →
      ∃ e, oracle a = Except.error e ∧ isNonRetryableErr e = false) ∧
    (match (retryGo oracle delay rem att le sl).result with
     | Except.ok r =>
       oracle ((retryGo oracle delay rem att le sl).attemptsMade - 1) =
         Except.ok r
     | Except.error e =>
       (oracle ((retryGo oracle delay rem att le sl).attemptsMade - 1) =
           Except.error e ∧
         (isNonRetryableErr e = true ∨
           (retryGo oracle delay rem att le sl).attemptsMade = att + rem)) ∨
       ((retryGo oracle delay rem att le sl).attemptsMade = 0 ∧ rem = 0 ∧
         e = MathSeekError.NetworkError "Max retries exceeded")) := by
  intro rem
  induction rem with
  | zero =>
    intro att le sl hnone hsome
    simp only [retryGo]
    refine ⟨le_refl att, by omega, by omega, by simp, by intro a ha hlt; omega, ?_⟩
    cases le with
    | none =>
      have h0 := hnone rfl
      subst h0
      simp [Option.getD]
    | some e =>
      obtain ⟨hpos, horacle, hretry⟩ := hsome e rfl
      simp only [Option.getD]
      exact Or.inl ⟨horacle, Or.inr rfl⟩
  | succ rem ih =>
    intro att le sl hnone hsome
    cases h : oracle att with
    | ok resp =>
      have hstep : retryGo oracle delay (rem + 1) att le sl =
          { result := Except.ok resp, attemptsMade := att + 1,
            sleptMs := if att > 0 then sl ++ [delay * att] else sl } := by
        simp [retryGo, h]
      rw [hstep]
      refine ⟨Nat.le_succ att, by show att + 1 ≤ att + (rem + 1); omega,
        by intro hh; show att < att + 1; omega, ?_,
        by intro a ha hlt; have hlt2 : a + 1 < att + 1 := hlt; omega,
        by simpa using h⟩
      rcases Nat.eq_zero_or_pos att with h0 | h0
      · subst h0
        simp [List.range']
      · have hmax : max att 1 = att := by omega
        have hone : att + 1 - att = 1 := by omega
        show (if att > 0 then sl ++ [delay * att] else sl) =
          sl ++ (List.range' (max att 1) (att + 1 - max att 1)).map
            (fun a => delay * a)
        simp only [hmax, hone]
        simp [h0, List.range']
    | error e =>
      by_cases hnr : isNonRetryableErr e = true
      · have hstep : retryGo oracle delay (rem + 1) att le sl =
            { result := Except.error e, attemptsMade := att + 1,
              sleptMs := if att > 0 then sl ++ [delay * att] else sl } := by
          simp [retryGo, h, hnr]
        rw [hstep]
        refine ⟨Nat.le_succ att, by show att + 1 ≤ att + (rem + 1); omega,
          by intro hh; show att < att + 1; omega, ?_,
          by intro a ha hlt; have hlt2 : a + 1 < att + 1 := hlt; omega,
          Or.inl ⟨by simpa using h, Or.inl hnr⟩⟩
        rcases Nat.eq_zero_or_pos att with h0 | h0
        · subst h0
          simp [List.range']
        · have hmax : max att 1 = att := by omega
          have hone : att + 1 - att = 1 := by omega
          show (if att > 0 then sl ++ [delay * att] else sl) =
            sl ++ (List.range' (max att 1) (att + 1 - max att 1)).map
              (fun a => delay * a)
          simp only [hmax, hone]
          simp [h0, List.range']
      · have hnr' : isNonRetryableErr e = false := by
          simpa using hnr
        have hstep : retryGo oracle delay (rem + 1) att le sl =
            retryGo oracle delay rem (att + 1) (some e)
              (if att > 0 then sl ++ [delay * att] else sl) := by
          simp [retryGo, h, hnr']
        rw [hstep]
        have ihres := ih (att + 1) (some e)
          (if att > 0 then sl ++ [delay * att] else sl)
          (by intro hc; exact Option.noConfusion hc)
          (by
            intro e' he'
            injection he' with he''
            subst he''
            exact ⟨Nat.succ_pos att, by simpa using h, hnr'⟩)
        obtain ⟨i1, i2, i3, i4, i5, i6⟩ := ihres
        refine ⟨by omega, by omega, by omega, ?_, ?_, ?_⟩
        · rw [i4]
          rcases Nat.eq_zero_or_pos att with h0 | h0
          · subst h0
            simp
          · have hmax1 : max (att + 1) 1 = att + 1 := by omega
            have hmax2 : max att 1 = att := by omega
            have hsub : (retryGo oracle delay rem (att + 1) (some e)
                (if att > 0 then sl ++ [delay * att] else sl)).attemptsMade -
                att = ((retryGo oracle delay rem (att + 1) (some e)
                (if att > 0 then sl ++ [delay * att] else sl)).attemptsMade -
                (att + 1)) + 1 := by omega
            rw [hmax1, hmax2, hsub, List.range'_succ, if_pos h0]
            simp [List.append_assoc]
        · intro a ha hlt
          rcases Nat.eq_or_lt_of_le ha with heq | hlt2
          · subst heq
            exact ⟨e, h, hnr'⟩
          · exact i5 a hlt2 hlt
        · cases hres : (retryGo oracle delay rem (att + 1) (some e)
              (if att > 0 then sl ++ [delay * att] else sl)).result with
          | ok r =>
            rw [hres] at i6
            exact i6
          | error e' =>
            rw [hres] at i6
            rcases i6 with ⟨horacle, hcase⟩ | ⟨hzero, _, _⟩
            · exact Or.inl ⟨horacle, hcase.imp id (fun hh => by omega)⟩
            · exact absurd hzero (by omega)

/-- C4 (amended): the client performs between 1 and N+1 attempts where N is
the configured retry count (`for attempt in 0..=max_retries`, so default 3
retries means up to 4 attempts), sleeping base×(k−1) ms before the k-th
attempt; every attempt before the last failed with a retryable error (a
401/403/400 API error ends the loop at that attempt); the surfaced outcome
is always the last attempt's own result — in particular the last observed
error, never the generic "max retries exceeded" failure, which would
require no attempt to have run. -/
theorem retry_loop_policy (cfg : ApiConfig)
    (oracle : Nat → Except MathSeekError RecognitionResponse) :
    1 ≤ (make_request_with_retry cfg oracle).attemptsMade ∧
    (make_request_with_retry cfg oracle).attemptsMade ≤ cfg.max_retries + 1 ∧
    (make_request_with_retry cfg oracle).sleptMs =
      (List.range' 1
        ((make_request_with_retry cfg oracle).attemptsMade - 1)).map
        (fun a => cfg.retry_delay_ms * a) ∧
    (∀ a, a + 1 < (make_request_with_retry cfg oracle).attemptsMade →
      ∃ e, oracle a = Except.error e ∧ isNonRetryableErr e = false) ∧
    (match (make_request_with_retry cfg oracle).result with
     | Except.ok r =>
       oracle ((make_request_with_retry cfg oracle).attemptsMade - 1) =
         Except.ok r
     | Except.error e =>
       oracle ((make_request_with_retry cfg oracle).attemptsMade - 1) =
         Except.error e ∧
         (isNonRetryableErr e = true ∨
          (make_request_with_retry cfg oracle).attemptsMade =
            cfg.max_retries + 1)) := by
  obtain ⟨i1, i2, i3, i4, i5, i6⟩ :=
    retryGo_spec oracle cfg.retry_delay_ms (cfg.max_retries + 1) 0 none []
      (fun _ => rfl) (fun e he => Option.noConfusion he)
  have hm : make_request_with_retry cfg oracle =
      retryGo oracle cfg.retry_delay_ms (cfg.max_retries + 1) 0 none [] := rfl
  rw [hm]
  refine ⟨i3 (Nat.succ_pos _), by omega, ?_, fun a h => i5 a (Nat.zero_le a) h, ?_⟩
  · rw [i4]
    simp
  · cases hres : (retryGo oracle cfg.retry_delay_ms (cfg.max_retries + 1)
        0 none []).result with
    | ok r =>
      rw [hres] at i6
      exact i6
    | error e =>
      rw [hres] at i6
      rcases i6 with ⟨horacle, hcase⟩ | ⟨hzero, _, _⟩
      · exact ⟨horacle, hcase.imp id (fun hh => by omega)⟩
      · have h1 := i3 (Nat.succ_pos cfg.max_retries)
        omega

/-- C4 (counterexample): with the default configuration (retry count 3) and
a transport that always fails retryably, the client performs 4 attempts —
not at most 3 as the claim states — sleeping 1000, 2000 and 3000 ms. -/
theorem retry_exceeds_configured_attempt_count :
    (make_request_with_retry ApiConfig.default
      (fun _ => Except.error
        (MathSeekError.NetworkError "transport failure"))).attemptsMade = 4 ∧
    (make_request_with_retry ApiConfig.default
      (fun _ => Except.error
        (MathSeekError.NetworkError "transport failure"))).sleptMs =
      [1000, 2000, 3000] ∧
    ApiConfig.default.max_retries = 3 ∧ ¬((4 : Nat) ≤ 3) := by
  decide

/-- Two fragment lists that are permutations of one another, with pairwise
distinct positions, sort to the same descending-position list: the sorted
order is uniquely determined once the keys are distinct. -/
theorem sortFragsDesc_perm_eq {l₁ l₂ : List FormulaBlock} (hp : l₁.Perm l₂)
    (hd : l₁.Pairwise (fun a b => a.position ≠ b.position)) :
    sortFragsDesc l₁ = sortFragsDesc l₂ := by
  haveI : IsTotal FormulaBlock (fun a b => b.position ≤ a.position) :=
    ⟨fun a b => le_total b.position a.position⟩
  haveI : IsTrans FormulaBlock (fun a b => b.position ≤ a.position) :=
    ⟨fun a b c hab hbc => le_trans hbc hab⟩
  haveI : IsAntisymm FormulaBlock (fun a b => b.position < a.position) :=
    ⟨fun a b h1 h2 => absurd (h1.trans h2) (lt_irrefl _)⟩
  have hperm : (sortFragsDesc l₁).Perm (sortFragsDesc l₂) :=
    (List.perm_insertionSort _ l₁).trans
      (hp.trans (List.perm_insertionSort _ l₂).symm)
  have hs1 : List.Sorted (fun a b => b.position ≤ a.position)
      (sortFragsDesc l₁) := List.sorted_insertionSort _ l₁
  have hs2 : List.Sorted (fun a b => b.position ≤ a.position)
      (sortFragsDesc l₂) := List.sorted_insertionSort _ l₂
  have hd1 : (sortFragsDesc l₁).Pairwise
      (fun a b => a.position ≠ b.position) :=
    ((List.perm_insertionSort _ l₁).pairwise_iff (fun h => Ne.symm h)).mpr hd
  have hd2 : (sortFragsDesc l₂).Pairwise
      (fun a b => a.position ≠ b.position) :=
    ((List.perm_insertionSort _ l₂).pairwise_iff (fun h => Ne.symm h)).mpr
      ((hp.pairwise_iff (fun h => Ne.symm h)).mp hd)
  have hstrict1 : List.Sorted (fun a b => b.position < a.position)
      (sortFragsDesc l₁) :=
    (hs1.and hd1).imp (fun h => lt_of_le_of_ne h.1 (fun heq => h.2 heq.symm))
  have hstrict2 : List.Sorted (fun a b => b.position < a.position)
      (sortFragsDesc l₂) :=
    (hs2.and hd2).imp (fun h => lt_of_le_of_ne h.1 (fun heq => h.2 heq.symm))
  exact List.eq_of_perm_of_sorted hperm hstrict1 hstrict2

/-- The LaTeX section renderer is invariant under permuting a section's
fragment list (distinct positions), since it sorts before splicing. -/
theorem latexSection_perm {s₁ s₂ : DocumentSection}
    (h : SectionPermutedFrags s₁ s₂) (hd : distinctPositions s₁) :
    latexSection s₁ = latexSection s₂ := by
  obtain ⟨hh, ht, hp⟩ := h
  unfold latexSection
  rw [hh, ht, sortFragsDesc_perm_eq hp hd]

/-- Likewise for the Markdown section renderer. -/
theorem markdownSection_perm (fmt : MarkdownFormulaFormat)
    {s₁ s₂ : DocumentSection}
    (h : SectionPermutedFrags s₁ s₂) (hd : distinctPositions s₁) :
    markdownSection fmt s₁ = markdownSection fmt s₂ := by
  obtain ⟨hh, ht, hp⟩ := h
  unfold markdownSection
  rw [hh, ht, sortFragsDesc_perm_eq hp hd]

/-- Likewise for the inline-forced Markdown section renderer. -/
theorem markdownInlineSection_perm (fmt : MarkdownFormulaFormat)
    {s₁ s₂ : DocumentSection}
    (h : SectionPermutedFrags s₁ s₂) (hd : distinctPositions s₁) :
    markdownInlineSection fmt s₁ = markdownInlineSection fmt s₂ := by
  obtain ⟨hh, ht, hp⟩ := h
  unfold markdownInlineSection
  rw [hh, ht, sortFragsDesc_perm_eq hp hd]

/-- Likewise for the HTML section renderer. -/
theorem htmlSection_perm {s₁ s₂ : DocumentSection}
    (h : SectionPermutedFrags s₁ s₂) (hd : distinctPositions s₁) :
    htmlSection s₁ = htmlSection s₂ := by
  obtain ⟨hh, ht, hp⟩ := h
  unfold htmlSection
  rw [hh, ht, sortFragsDesc_perm_eq hp hd]

/-- Section-by-section congruence for the sequential section fold. -/
theorem renderSections_congr {f : DocumentSection → Option String}
    {ss₁ ss₂ : List DocumentSection}
    (h : List.Forall₂ (fun s₁ s₂ => f s₁ = f s₂) ss₁ ss₂) :
    renderSections f ss₁ = renderSections f ss₂ := by
  induction h with
  | nil => rfl
  | cons hfs _ ih =>
    unfold renderSections
    rw [hfs, ih]

/-- Lift a per-section congruence to paired section lists. -/
theorem forall₂_f_of_sectionPerm {f : DocumentSection → Option String}
    (hcong : ∀ s₁ s₂, SectionPermutedFrags s₁ s₂ → distinctPositions s₁ →
      f s₁ = f s₂) :
    ∀ {ss₁ ss₂ : List DocumentSection},
    List.Forall₂ SectionPermutedFrags ss₁ ss₂ →
    (∀ s ∈ ss₁, distinctPositions s) →
    List.Forall₂ (fun a b => f a = f b) ss₁ ss₂ := by
  intro ss₁ ss₂ h
  induction h with
  | nil => intro _; exact List.Forall₂.nil
  | cons hab hrest ih =>
    intro hd
    exact List.Forall₂.cons
      (hcong _ _ hab (hd _ (List.mem_cons_self _ _)))
      (ih (fun s hsmem => hd s (List.mem_cons_of_mem _ hsmem)))

/-- C1 (amended): for every Document and the four splicing formats that
sort (plain LaTeX, plain Markdown, Markdown-inline, HTML), fragments are
applied in descending offset order, so for documents whose sections have
fragments at pairwise distinct offsets the rendered output is identical
under any reordering of each section's fragment list.  The LaTeX-inline
path is excluded: it splices in raw list order (see the counterexample). -/
theorem splice_order_invariance (fmt : MarkdownFormulaFormat)
    (d₁ d₂ : DocumentContent)
    (ht : d₁.title = d₂.title)
    (hs : List.Forall₂ SectionPermutedFrags d₁.sections d₂.sections)
    (hd : ∀ s ∈ d₁.sections, distinctPositions s) :
    document_to_latex d₁ = document_to_latex d₂ ∧
    document_to_markdown fmt d₁ = document_to_markdown fmt d₂ ∧
    document_to_markdown_inline fmt d₁ = document_to_markdown_inline fmt d₂ ∧
    (∀ (r₁ r₂ : FormulaResult) (ec : ExportConfig),
      r₁.content = ResultContent.Document d₁ →
      r₂.content = ResultContent.Document d₂ →
      r₁.input_type = r₂.input_type →
      r₁.confidence = r₂.confidence →
      export_to_html r₁ ec = export_to_html r₂ ec) := by
  have hsec : ∀ (f : DocumentSection → Option String),
      (∀ s₁ s₂, SectionPermutedFrags s₁ s₂ → distinctPositions s₁ →
        f s₁ = f s₂) →
      renderSections f d₁.sections = renderSections f d₂.sections := by
    intro f hcong
    exact renderSections_congr (forall₂_f_of_sectionPerm hcong hs hd)
  refine ⟨?_, ?_, ?_, ?_⟩
  · unfold document_to_latex
    rw [ht, hsec latexSection (fun s₁ s₂ h hd => latexSection_perm h hd)]
  · unfold document_to_markdown
    rw [ht, hsec (markdownSection fmt)
      (fun s₁ s₂ h hd => markdownSection_perm fmt h hd)]
  · unfold document_to_markdown_inline
    rw [ht, hsec (markdownInlineSection fmt)
      (fun s₁ s₂ h hd => markdownInlineSection_perm fmt h hd)]
  · intro r₁ r₂ ec hc1 hc2 hit hconf
    unfold export_to_html
    rw [hc1, hc2, hit, hconf]
    dsimp only
    rw [ht, hsec htmlSection (fun s₁ s₂ h hd => htmlSection_perm h hd)]

/-- C1 (counterexample): the LaTeX-inline export path applies fragments in
the order of the section's fragment list without sorting, so two orderings
of the same two fragments at distinct offsets (0 and 2 in a 2-byte body)
render different output — refuting the claim that all five listed formats
splice in descending offset order. -/
theorem latex_inline_export_order_dependent :
    (exportContent AppConfig.default
      { latex := "ab", confidence := 1, timestamp := 0,
        input_type := InputType.Document,
        content := ResultContent.Document
          { title := none,
            sections := [{ heading := none, text := "ab",
                           formulas :=
                             [{ latex := "x", position := 0, is_inline := true },
                              { latex := "y", position := 2, is_inline := true }] }] } }
      { ExportConfig.default with format := ExportFormat.LaTeXInline } ≠
     exportContent AppConfig.default
      { latex := "ab", confidence := 1, timestamp := 0,
        input_type := InputType.Document,
        content := ResultContent.Document
          { title := none,
            sections := [{ heading := none, text := "ab",
                           formulas :=
                             [{ latex := "y", position := 2, is_inline := true },
                              { latex := "x", position := 0, is_inline := true }] }] } }
      { ExportConfig.default with format := ExportFormat.LaTeXInline }) ∧
    ([{ latex := "x", position := 0, is_inline := true },
      { latex := "y", position := 2, is_inline := true }] :
        List FormulaBlock).Perm
      [{ latex := "y", position := 2, is_inline := true },
       { latex := "x", position := 0, is_inline := true }] ∧
    (0 : Nat) ≠ 2 := by
  decide

/-- C1 (witness): concrete instantiation of the order-invariance theorem on
a one-section document with two fragments at offsets 0 and 2. -/
theorem splice_order_invariance_witness :
    document_to_latex
      { title := none,
        sections := [{ heading := some "S", text := "ab",
                       formulas :=
                         [{ latex := "x", position := 0, is_inline := true },
                          { latex := "y", position := 2, is_inline := true }] }] } =
    document_to_latex
      { title := none,
        sections := [{ heading := some "S", text := "ab",
                       formulas :=
                         [{ latex := "y", position := 2, is_inline := true },
                          { latex := "x", position := 0, is_inline := true }] }] } :=
  (splice_order_invariance MarkdownFormulaFormat.default
    { title := none,
      sections := [{ heading := some "S", text := "ab",
                     formulas :=
                       [{ latex := "x", position := 0, is_inline := true },
                        { latex := "y", position := 2, is_inline := true }] }] }
    { title := none,
      sections := [{ heading := some "S", text := "ab",
                     formulas :=
                       [{ latex := "y", position := 2, is_inline := true },
                        { latex := "x", position := 0, is_inline := true }] }] }
    rfl
    (List.Forall₂.cons ⟨rfl, rfl, by decide⟩ List.Forall₂.nil)
    (by
      intro s hmem
      rw [List.mem_singleton] at hmem
      subst hmem
      decide)).1

end MathSeek
